import Mathlib

/-!
Shallow embedding of `src/lib/bookoption.rs` (crowbook): the typed option
store `BookOptions`, its compiled-in schema string `OPTIONS`, the schema
parser `options_to_vec`, the constructor `new`, the mutator `set`, the
accessors `get` / `get_str` / `get_path` / `get_relative_path` /
`get_bool` / `get_char` / `get_i32`, and the documentation generator
`description`.

Modelling conventions:
- Rust `&str` / `String` values are Lean `String`s; character-level
  operations (`str::split`, `str::trim`, `str::lines`) are embedded as
  recursive functions on `List Char` (`splitOnChar`, `trimList`), which
  agree with Rust's per-character semantics.
- The `HashMap<String, BookOption>` is an association list: `insert` is
  modelled by prepending and `get` by `List.lookup`, which returns the
  most recent binding, observationally the same as insert-replace.
- Rust panics (`unwrap()`, `panic!`, out-of-range indexing) are modelled
  by `Option`: `none` means the process aborts.
- `env::temp_dir()` is external to the repository; it is a parameter
  `tmpDir` of the constructor.
-/

/-- The single-quote character `'`. -/
def squote : Char := Char.ofNat 39

/-- Embeds Rust `str::split(sep)`: the (possibly empty) pieces of the
character list strictly between occurrences of `sep`. -/
def splitOnChar (sep : Char) : List Char → List (List Char)
  | [] => [[]]
  | c :: cs =>
    match splitOnChar sep cs with
    | [] => [[]]
    | h :: t => if c = sep then [] :: h :: t else (c :: h) :: t

/-- Tail-recursive worker for `splitOnCharTR`: `cur` is the reversed
piece being accumulated, `acc` the reversed list of finished pieces. -/
def splitOnCharAux (sep : Char) : List Char → List Char → List (List Char) → List (List Char)
  | [], cur, acc => (cur.reverse :: acc).reverse
  | c :: cs, cur, acc =>
    if c = sep then splitOnCharAux sep cs [] (cur.reverse :: acc)
    else splitOnCharAux sep cs (c :: cur) acc

/-- Tail-recursive form of `splitOnChar` (equal to it, proved below);
used on the long schema text so that kernel reduction stays shallow. -/
def splitOnCharTR (sep : Char) (l : List Char) : List (List Char) :=
  splitOnCharAux sep l [] []

/-- Embeds Rust `str::trim`: drop whitespace from both ends. -/
def trimList (l : List Char) : List Char :=
  ((l.dropWhile Char.isWhitespace).reverse.dropWhile Char.isWhitespace).reverse

/-- Embeds Rust `bool::from_str`: exactly `true` or `false`. -/
def parseBool (s : String) : Option Bool :=
  if s = "true" then some true else if s = "false" then some false else none

/-- Numeric value of an ASCII digit. -/
def digitVal (c : Char) : Option Nat :=
  if '0' ≤ c ∧ c ≤ '9' then some (c.toNat - '0'.toNat) else none

/-- Accumulate base-10 digits; `none` on the first non-digit. -/
def parseDigitsAux : List Char → Nat → Option Nat
  | [], acc => some acc
  | c :: cs, acc =>
    match digitVal c with
    | some d => parseDigitsAux cs (10 * acc + d)
    | none => none

/-- A non-empty run of ASCII digits, base 10. -/
def parseDigits (l : List Char) : Option Nat :=
  if l.isEmpty then none else parseDigitsAux l 0

/-- Embeds Rust `i32::from_str`: optional sign, one or more base-10
digits, and the value must fit in a signed 32-bit integer. -/
def parseI32 (s : String) : Option Int :=
  let l := s.data
  let signed : Bool × List Char :=
    match l with
    | '-' :: rest => (true, rest)
    | '+' :: rest => (false, rest)
    | _ => (false, l)
  match parseDigits signed.2 with
  | none => none
  | some n =>
    let v : Int := if signed.1 then -(n : Int) else (n : Int)
    if v < -(2 ^ 31) ∨ (2 ^ 31 - 1 : Int) < v then none else some v

/-- Embeds `enum BookOption`: a typed option value (constructors mirror
`BookOption::String/Bool/Char/Int/Path`). -/
inductive BookOption where
  | string (s : String)
  | bool (b : Bool)
  | char (c : Char)
  | int (i : Int)
  | path (s : String)
deriving DecidableEq

/-- Embeds the error variants this module produces (`Error::BookOption`,
`Error::ConfigParser`, `Error::InvalidOption`). -/
inductive Error where
  | BookOption (msg : String)
  | ConfigParser (msg : String) (arg : String)
  | InvalidOption (msg : String)
deriving DecidableEq

/-- Rust `Debug` rendering of a `BookOption` (string escaping elided). -/
def reprB : BookOption → String
  | BookOption.string s => "String(\"" ++ s ++ "\")"
  | BookOption.bool b => "Bool(" ++ (if b then "true" else "false") ++ ")"
  | BookOption.char c =>
      "Char(" ++ String.singleton squote ++ String.singleton c ++ String.singleton squote ++ ")"
  | BookOption.int n => "Int(" ++ toString n ++ ")"
  | BookOption.path s => "Path(\"" ++ s ++ "\")"

/-- Embeds `BookOption::as_str`. -/
def BookOption.as_str : BookOption → Except Error String
  | BookOption.string s => Except.ok s
  | o => Except.error (Error.BookOption (reprB o ++ " is not a string"))

/-- Embeds `BookOption::as_path`. -/
def BookOption.as_path : BookOption → Except Error String
  | BookOption.path s => Except.ok s
  | o => Except.error (Error.BookOption (reprB o ++ " is not a path"))

/-- Embeds `BookOption::as_bool`. -/
def BookOption.as_bool : BookOption → Except Error Bool
  | BookOption.bool b => Except.ok b
  | o => Except.error (Error.BookOption (reprB o ++ " is not a bool"))

/-- Embeds `BookOption::as_char`. -/
def BookOption.as_char : BookOption → Except Error Char
  | BookOption.char c => Except.ok c
  | o => Except.error (Error.BookOption (reprB o ++ " is not a char"))

/-- Embeds `BookOption::as_i32`. -/
def BookOption.as_i32 : BookOption → Except Error Int
  | BookOption.int i => Except.ok i
  | o => Except.error (Error.BookOption (reprB o ++ " is not an i32"))

/-- The char conversion of `set`: `words = value.trim().split('\x27')`;
it succeeds exactly when `words.len() == 3` and `words[1]` consists of
exactly one char (`chars.len() == 1`), yielding that char (`chars[0]`). -/
def parseCharLit (value : String) : Option Char :=
  match splitOnChar squote (trimList value.data) with
  | [_, [c], _] => some c
  | _ => none

/-- Embeds `struct BookOptions`. -/
structure BookOptions where
  options : List (String × BookOption)
  valid_bools : List String
  valid_chars : List String
  valid_strings : List String
  valid_paths : List String
  valid_ints : List String
  root : String

/-- Embeds `BookOptions::set`. -/
def BookOptions.set (b : BookOptions) (key value : String) : BookOptions × Except Error Unit :=
  if b.valid_strings.contains key then
    ({ b with options := (key, BookOption.string value) :: b.options }, Except.ok ())
  else if b.valid_paths.contains key then
    ({ b with options := (key, BookOption.path value) :: b.options }, Except.ok ())
  else if b.valid_chars.contains key then
    match parseCharLit value with
    | some c => ({ b with options := (key, BookOption.char c) :: b.options }, Except.ok ())
    | none => (b, Except.error (Error.ConfigParser "could not parse char" value))
  else if b.valid_bools.contains key then
    match parseBool value with
    | some x => ({ b with options := (key, BookOption.bool x) :: b.options }, Except.ok ())
    | none => (b, Except.error (Error.ConfigParser "could not parse bool" (key ++ ":" ++ value)))
  else if b.valid_ints.contains key then
    match parseI32 value with
    | some n => ({ b with options := (key, BookOption.int n) :: b.options }, Except.ok ())
    | none => (b, Except.error (Error.ConfigParser "could not parse int" (key ++ ":" ++ value)))
  else
    (b, Except.error (Error.ConfigParser "unrecognized key" key))

/-- Embeds `BookOptions::get`. -/
def BookOptions.get (b : BookOptions) (key : String) : Except Error BookOption :=
  match b.options.lookup key with
  | some v => Except.ok v
  | none => Except.error (Error.InvalidOption ("option " ++ key ++ " is not persent"))

/-- Embeds `BookOptions::get_str`. -/
def BookOptions.get_str (b : BookOptions) (key : String) : Except Error String :=
  (b.get key).bind BookOption.as_str

/-- Unix `PathBuf::join` on textual paths: an absolute right operand
replaces the root; otherwise a separator is inserted when needed. -/
def pathJoin (root p : String) : String :=
  match p.data with
  | '/' :: _ => p
  | _ =>
    match root.data with
    | [] => p
    | rs => if rs.getLast? = some '/' then ⟨rs ++ p.data⟩ else ⟨rs ++ '/' :: p.data⟩

/-- Embeds `BookOptions::get_path` (paths are modelled as UTF-8 strings,
so the source's invalid-UTF-8 branch of `to_str` cannot fire). -/
def BookOptions.get_path (b : BookOptions) (key : String) : Except Error String :=
  match (b.get key).bind BookOption.as_path with
  | Except.error e => Except.error e
  | Except.ok p => Except.ok (pathJoin b.root p)

/-- Embeds `BookOptions::get_relative_path`. -/
def BookOptions.get_relative_path (b : BookOptions) (key : String) : Except Error String :=
  (b.get key).bind BookOption.as_path

/-- Embeds `BookOptions::get_bool`. -/
def BookOptions.get_bool (b : BookOptions) (key : String) : Except Error Bool :=
  (b.get key).bind BookOption.as_bool

/-- Embeds `BookOptions::get_char`. -/
def BookOptions.get_char (b : BookOptions) (key : String) : Except Error Char :=
  (b.get key).bind BookOption.as_char

/-- Embeds `BookOptions::get_i32`. -/
def BookOptions.get_i32 (b : BookOptions) (key : String) : Except Error Int :=
  (b.get key).bind BookOption.as_i32

/-- One parsed schema line, as in `options_to_vec`:
`(comment, key, type, default value)`; a section heading has no key. -/
abbrev Entry := String × Option String × Option String × Option String

/-- Embeds `BookOptions::options_to_vec`, parameterised by the schema
text. `v[1]` indexing on a line without `#` or `:` would panic in the
source; that never occurs for the compiled-in schema, and is modelled
with an empty-string default. -/
def options_to_vec (schema : String) : List Entry :=
  (splitOnCharTR '\n' schema.data).filterMap fun rawLine =>
    let line := trimList rawLine
    if line.isEmpty then
      none
    else if line.head? = some '#' then
      some (⟨line.tail⟩, none, none, none)
    else
      let v := splitOnCharTR '#' line
      let content := v.headD []
      let comment := (v.drop 1).headD []
      let w := splitOnCharTR ':' content
      let key := (⟨trimList (w.headD [])⟩ : String)
      let option_type := (⟨trimList ((w.drop 1).headD [])⟩ : String)
      let default_value :=
        if w.length > 2 then some ((⟨trimList ((w.drop 2).headD [])⟩ : String)) else none
      some ((⟨comment⟩ : String), some key, some option_type, default_value)

/-- Embeds the compiled-in schema text `OPTIONS` (apostrophes written
`\x27` and braces `\x7b`/`\x7d`). -/
def OPTIONS : String := String.intercalate "\n" [
  "",
  "# Metadata",
  "author:str:Anonymous                # The author of the book",
  "title:str:Untitled                  # The title of the book",
  "lang:str:en                         # The language of the book",
  "subject:str                         # Subject of the book (used for EPUB metadata)",
  "description:str                     # Description of the book (used for EPUB metadata)",
  "cover:path                          # File name of the cover of the book ",
  "# Output options",
  "output.epub:path                    # Output file name for EPUB rendering",
  "output.html:path                    # Output file name for HTML rendering",
  "output.tex:path                     # Output file name for LaTeX rendering",
  "output.pdf:path                     # Output file name for PDF rendering",
  "output.odt:path                     # Output file name for ODT rendering",
  "",
  "",
  "# Misc options",
  "zip.command:str:zip                 # Command to use to zip files (for EPUB/ODT)",
  "numbering:int:1                     # The  maximum heading levels to number (0: no numbering, 1: only chapters, ..., 6: all)",
  "display_toc:bool:false              # If true, display a table of content in the document",
  "toc_name:str:Table of contents      # Name of the table of contents if toc is displayed in line",
  "autoclean:bool:true                 # Toggles cleaning of input markdown (not used for LaTeX)",
  "verbose:bool:false                  # If set to true, print warnings in Markdown processing",
  "side_notes:bool:false               # Display footnotes as side notes in HTML/Epub",
  "temp_dir:path:                      # Path where to create a temporary directory (default: uses result from Rust\x27s std::env::temp_dir())",
  "numbering_template:str:\x7b\x7bnumber\x7d\x7d. \x7b\x7btitle\x7d\x7d # Format of numbered titles",
  "nb_char:char:\x27\u202F\x27                    # The non-breaking character to use for autoclean when lang is set to fr",
  "",
  "# HTML options",
  "html.template:path                  # Path of an HTML template",
  "html.css:path                       # Path of a stylesheet to use with HTML rendering",
  "",
  "# EPUB options",
  "epub.version:int:2                  # The EPUB version to generate",
  "epub.css:path                       # Path of a stylesheet to use with EPUB rendering",
  "epub.template:path                  # Path of an epub template for chapter",
  "",
  "# LaTeX options",
  "tex.links_as_footnotes:bool:true    # If set to true, will add foontotes to URL of links in LaTeX/PDF output",
  "tex.command:str:pdflatex            # LaTeX flavour to use for generating PDF",
  "tex.template:path                   # Path of a LaTeX template file",
  ""]

/-- The freshly initialised store of `BookOptions::new` before the schema
loop runs (empty map, empty valid-key sets, `PathBuf::new()` root). -/
def initStore : BookOptions :=
  { options := [], valid_bools := [], valid_chars := [], valid_strings := [],
    valid_paths := [], valid_ints := [], root := "" }

/-- The loop body of `BookOptions::new` over the parsed schema entries.
`none` models a panic: an unrecognized type token, or `.unwrap()` on a
failed `set` of a default value. -/
def newLoop (tmpDir : String) : List Entry → BookOptions → Option BookOptions
  | [], b => some b
  | (_, none, _, _) :: rest, b => newLoop tmpDir rest b
  | (_, some key, otype, default_value) :: rest, b =>
    match otype with
    | none => none
    | some t =>
      match (match t with
             | "str" => some { b with valid_strings := b.valid_strings ++ [key] }
             | "bool" => some { b with valid_bools := b.valid_bools ++ [key] }
             | "int" => some { b with valid_ints := b.valid_ints ++ [key] }
             | "char" => some { b with valid_chars := b.valid_chars ++ [key] }
             | "path" => some { b with valid_paths := b.valid_paths ++ [key] }
             | _ => none) with
      | none => none
      | some b' =>
        if key = "temp_dir" then
          match b'.set key tmpDir with
          | (b2, Except.ok _) => newLoop tmpDir rest b2
          | (_, Except.error _) => none
        else
          match default_value with
          | some value =>
            match b'.set key value with
            | (b2, Except.ok _) => newLoop tmpDir rest b2
            | (_, Except.error _) => none
          | none => newLoop tmpDir rest b'

/-- `BookOptions::new` run against an arbitrary schema text. -/
def newFrom (schema tmpDir : String) : Option BookOptions :=
  newLoop tmpDir (options_to_vec schema) initStore

/-- Embeds `BookOptions::new` (on the compiled-in `OPTIONS` schema);
`tmpDir` is the result of `env::temp_dir()`. -/
def new (tmpDir : String) : Option BookOptions :=
  newFrom OPTIONS tmpDir

/-- The store `new` constructs (it never panics on the compiled-in
schema, as proved below). -/
def newD (tmpDir : String) : BookOptions :=
  (new tmpDir).getD initStore

/-- The human-readable type names used by `description`; the source's
`unreachable!()` arm (never hit for the compiled-in schema) is rendered
as a marker string. -/
def humanTypeName (t : String) : String :=
  match t with
  | "bool" => "boolean"
  | "int" => "integer"
  | "char" => "char"
  | "str" => "string"
  | "path" => "path"
  | _ => "unreachable"

/-- The text `description` emits for one option definition (both the
Markdown and the plain format string of the source). -/
def optionChunk (md : Bool) (comment key tname d : String) : String :=
  if md then
    "- **`" ++ key ++ "`**\n    - **type**: " ++ tname ++
      "\n    - **default value**: `" ++ d ++ "`\n    - " ++ comment ++ "\n"
  else
    "- " ++ key ++ " (type: " ++ tname ++ ") (default: " ++ d ++ ") " ++ comment ++ "\n"

/-- The text `description` emits for one section heading, including the
separating blank line when the previous entry was not a heading. -/
def sectionChunk (prev : Bool) (comment : String) : String :=
  (if !prev then "\n" else "") ++ "### " ++ comment ++ " ###\n"

/-- The loop of `BookOptions::description` (the `Bool` argument is the
`previous_is_comment` flag, initially `true`). -/
def descLoop (md : Bool) : List Entry → Bool → String
  | [], _ => ""
  | (comment, none, _, _) :: rest, prev => sectionChunk prev comment ++ descLoop md rest true
  | (comment, some key, otype, d) :: rest, _ =>
    optionChunk md comment key (humanTypeName (otype.getD "")) (d.getD "not set") ++
      descLoop md rest false

/-- Embeds `BookOptions::description`. -/
def description (md : Bool) : String :=
  descLoop md (options_to_vec OPTIONS) true

/-- Concatenate the pieces, separated by `sep` (left inverse of
`splitOnChar`, used to characterise it). -/
def joinWith (sep : Char) : List (List Char) → List Char
  | [] => []
  | [a] => a
  | a :: rest => a ++ sep :: joinWith sep rest

/-- Concatenation of the text chunks `description` emits. -/
def joinChunks : List String → String
  | [] => ""
  | s :: rest => s ++ joinChunks rest

/-- The chunk list of `description`: one emitted piece of text per
schema entry, in order (same recursion as `descLoop`). -/
def descChunks (md : Bool) : List Entry → Bool → List String
  | [], _ => []
  | (comment, none, _, _) :: rest, prev => sectionChunk prev comment :: descChunks md rest true
  | (comment, some key, otype, d) :: rest, _ =>
    optionChunk md comment key (humanTypeName (otype.getD "")) (d.getD "not set") ::
      descChunks md rest false

/-- Modelled from the spec: the raw value, after trimming, is exactly of
the literal form `'<one character>'` — a single-quote, exactly one
character, and a closing single-quote, with nothing else. -/
def specCharShape (s : String) : Bool :=
  match trimList s.data with
  | [q1, _, q2] => q1 == squote && q2 == squote
  | _ => false

/-- The semantic value of a raw default string at a schema type token
(the grammar each type uses in `set`). -/
def parsedDefault (t d : String) : Option BookOption :=
  match t with
  | "str" => some (BookOption.string d)
  | "path" => some (BookOption.path d)
  | "bool" => (parseBool d).map BookOption.bool
  | "int" => (parseI32 d).map BookOption.int
  | "char" => (parseCharLit d).map BookOption.char
  | _ => none

/-- The option map `new` builds from the schema defaults (most recent
insertion first; `temp_dir` carries the environment-supplied path). -/
def builtOptions (tmp : String) : List (String × BookOption) :=
  [("tex.command", BookOption.string "pdflatex"),
   ("tex.links_as_footnotes", BookOption.bool true),
   ("epub.version", BookOption.int 2),
   ("nb_char", BookOption.char '\u202F'),
   ("numbering_template", BookOption.string "\x7b\x7bnumber\x7d\x7d. \x7b\x7btitle\x7d\x7d"),
   ("temp_dir", BookOption.path tmp),
   ("side_notes", BookOption.bool false),
   ("verbose", BookOption.bool false),
   ("autoclean", BookOption.bool true),
   ("toc_name", BookOption.string "Table of contents"),
   ("display_toc", BookOption.bool false),
   ("numbering", BookOption.int 1),
   ("zip.command", BookOption.string "zip"),
   ("lang", BookOption.string "en"),
   ("title", BookOption.string "Untitled"),
   ("author", BookOption.string "Anonymous")]

/-- The store `new` constructs, written out literally (proved equal to
`newD tmp` below, so later proofs avoid re-running the constructor). -/
def builtStore (tmp : String) : BookOptions :=
  { options := builtOptions tmp,
    valid_bools := ["display_toc", "autoclean", "verbose", "side_notes",
      "tex.links_as_footnotes"],
    valid_chars := ["nb_char"],
    valid_strings := ["author", "title", "lang", "subject", "description", "zip.command",
      "toc_name", "numbering_template", "tex.command"],
    valid_paths := ["cover", "output.epub", "output.html", "output.tex", "output.pdf",
      "output.odt", "temp_dir", "html.template", "html.css", "epub.css", "epub.template",
      "tex.template"],
    valid_ints := ["numbering", "epub.version"],
    root := "" }

/-- The parsed schema entries of `OPTIONS`, written out literally
(proved equal to `options_to_vec OPTIONS` below). -/
def schemaEntries : List Entry :=
  [(" Metadata", none, none, none),
   (" The author of the book", some "author", some "str", some "Anonymous"),
   (" The title of the book", some "title", some "str", some "Untitled"),
   (" The language of the book", some "lang", some "str", some "en"),
   (" Subject of the book (used for EPUB metadata)", some "subject", some "str", none),
   (" Description of the book (used for EPUB metadata)", some "description", some "str", none),
   (" File name of the cover of the book", some "cover", some "path", none),
   (" Output options", none, none, none),
   (" Output file name for EPUB rendering", some "output.epub", some "path", none),
   (" Output file name for HTML rendering", some "output.html", some "path", none),
   (" Output file name for LaTeX rendering", some "output.tex", some "path", none),
   (" Output file name for PDF rendering", some "output.pdf", some "path", none),
   (" Output file name for ODT rendering", some "output.odt", some "path", none),
   (" Misc options", none, none, none),
   (" Command to use to zip files (for EPUB/ODT)", some "zip.command", some "str", some "zip"),
   (" The  maximum heading levels to number (0: no numbering, 1: only chapters, ..., 6: all)",
     some "numbering", some "int", some "1"),
   (" If true, display a table of content in the document", some "display_toc", some "bool",
     some "false"),
   (" Name of the table of contents if toc is displayed in line", some "toc_name", some "str",
     some "Table of contents"),
   (" Toggles cleaning of input markdown (not used for LaTeX)", some "autoclean", some "bool",
     some "true"),
   (" If set to true, print warnings in Markdown processing", some "verbose", some "bool",
     some "false"),
   (" Display footnotes as side notes in HTML/Epub", some "side_notes", some "bool",
     some "false"),
   (" Path where to create a temporary directory (default: uses result from Rust\x27s std::env::temp_dir())",
     some "temp_dir", some "path", some ""),
   (" Format of numbered titles", some "numbering_template", some "str",
     some "\x7b\x7bnumber\x7d\x7d. \x7b\x7btitle\x7d\x7d"),
   (" The non-breaking character to use for autoclean when lang is set to fr", some "nb_char",
     some "char", some "\x27\u202F\x27"),
   (" HTML options", none, none, none),
   (" Path of an HTML template", some "html.template", some "path", none),
   (" Path of a stylesheet to use with HTML rendering", some "html.css", some "path", none),
   (" EPUB options", none, none, none),
   (" The EPUB version to generate", some "epub.version", some "int", some "2"),
   (" Path of a stylesheet to use with EPUB rendering", some "epub.css", some "path", none),
   (" Path of an epub template for chapter", some "epub.template", some "path", none),
   (" LaTeX options", none, none, none),
   (" If set to true, will add foontotes to URL of links in LaTeX/PDF output",
     some "tex.links_as_footnotes", some "bool", some "true"),
   (" LaTeX flavour to use for generating PDF", some "tex.command", some "str",
     some "pdflatex"),
   (" Path of a LaTeX template file", some "tex.template", some "path", none)]


lemma splitOnChar_ne_nil (sep : Char) (l : List Char) : splitOnChar sep l ≠ [] := by
  cases l with
  | nil => simp [splitOnChar]
  | cons c cs =>
    unfold splitOnChar
    cases h : splitOnChar sep cs with
    | nil => simp
    | cons h t =>
      by_cases hc : c = sep <;> simp [hc]

lemma splitOnChar_not_mem (sep : Char) (l : List Char) (h : sep ∉ l) :
    splitOnChar sep l = [l] := by
  induction l with
  | nil => simp [splitOnChar]
  | cons c cs ih =>
    have hc : c ≠ sep := fun hc => h (hc ▸ List.mem_cons_self c cs)
    have hcs : sep ∉ cs := fun hm => h (List.mem_cons_of_mem c hm)
    unfold splitOnChar
    rw [ih hcs]
    simp [hc]

lemma splitOnChar_cons (sep c : Char) (cs : List Char) :
    splitOnChar sep (c :: cs) =
      match splitOnChar sep cs with
      | [] => [[]]
      | h :: t => if c = sep then [] :: h :: t else (c :: h) :: t := rfl

lemma splitOnChar_append (sep : Char) (a rest : List Char) (h : sep ∉ a) :
    splitOnChar sep (a ++ sep :: rest) = a :: splitOnChar sep rest := by
  induction a with
  | nil =>
    simp only [List.nil_append]
    rw [splitOnChar_cons]
    cases hr : splitOnChar sep rest with
    | nil => exact absurd hr (splitOnChar_ne_nil sep rest)
    | cons x t => simp
  | cons c cs ih =>
    have hc : c ≠ sep := fun hc => h (hc ▸ List.mem_cons_self c cs)
    have hcs : sep ∉ cs := fun hm => h (List.mem_cons_of_mem c hm)
    simp only [List.cons_append]
    rw [splitOnChar_cons, ih hcs]
    simp [hc]

lemma joinWith_splitOnChar (sep : Char) (l : List Char) :
    joinWith sep (splitOnChar sep l) = l := by
  induction l with
  | nil => simp [splitOnChar, joinWith]
  | cons c cs ih =>
    unfold splitOnChar
    cases h : splitOnChar sep cs with
    | nil => exact absurd h (splitOnChar_ne_nil sep cs)
    | cons x t =>
      rw [h] at ih
      by_cases hc : c = sep
      · subst hc
        simp only [if_pos rfl]
        simpa [joinWith] using ih
      · simp only [if_neg hc]
        cases t with
        | nil => simpa [joinWith] using congrArg (c :: ·) ih
        | cons y u => simpa [joinWith] using congrArg (c :: ·) ih

lemma splitOnChar_pieces (sep : Char) (l : List Char) :
    ∀ p ∈ splitOnChar sep l, sep ∉ p := by
  induction l with
  | nil => simp [splitOnChar]
  | cons c cs ih =>
    unfold splitOnChar
    cases h : splitOnChar sep cs with
    | nil => exact absurd h (splitOnChar_ne_nil sep cs)
    | cons x t =>
      rw [h] at ih
      by_cases hc : c = sep
      · subst hc
        simp only [if_pos rfl]
        intro p hp
        rcases List.mem_cons.mp hp with rfl | hp
        · simp
        · exact ih p hp
      · simp only [if_neg hc]
        intro p hp
        rcases List.mem_cons.mp hp with rfl | hp
        · intro hmem
          rcases List.mem_cons.mp hmem with rfl | hmem
          · exact hc rfl
          · exact ih x (List.mem_cons_self x t) hmem
        · exact ih p (List.mem_cons_of_mem x hp)

lemma splitOnChar_eq_three_iff (sep : Char) (l a m b : List Char) :
    splitOnChar sep l = [a, m, b] ↔
      l = a ++ sep :: (m ++ sep :: b) ∧ sep ∉ a ∧ sep ∉ m ∧ sep ∉ b := by
  constructor
  · intro h
    have hj := joinWith_splitOnChar sep l
    rw [h] at hj
    have hp := splitOnChar_pieces sep l
    rw [h] at hp
    refine ⟨?_, hp a (by simp), hp m (by simp), hp b (by simp)⟩
    simpa [joinWith] using hj.symm
  · rintro ⟨rfl, ha, hm, hb⟩
    rw [splitOnChar_append sep a (m ++ sep :: b) ha]
    rw [splitOnChar_append sep m b hm]
    rw [splitOnChar_not_mem sep b hb]

lemma splitOnCharAux_eq (sep : Char) :
    ∀ (l cur : List Char) (acc : List (List Char)),
      splitOnCharAux sep l cur acc =
        acc.reverse ++
          (cur.reverse ++ (splitOnChar sep l).headD []) :: (splitOnChar sep l).tail := by
  intro l
  induction l with
  | nil => intro cur acc; simp [splitOnCharAux, splitOnChar]
  | cons c cs ih =>
    intro cur acc
    cases hs : splitOnChar sep cs with
    | nil => exact absurd hs (splitOnChar_ne_nil sep cs)
    | cons h t =>
      rw [splitOnChar_cons, hs]
      by_cases hc : c = sep
      · simp only [splitOnCharAux, if_pos hc, hc]
        rw [ih, hs]
        simp
      · simp only [splitOnCharAux, if_neg hc]
        rw [ih, hs]
        simp [hc]

lemma splitOnCharTR_eq (sep : Char) (l : List Char) :
    splitOnCharTR sep l = splitOnChar sep l := by
  rw [splitOnCharTR, splitOnCharAux_eq]
  cases hs : splitOnChar sep l with
  | nil => exact absurd hs (splitOnChar_ne_nil sep l)
  | cons h t => simp


set_option maxRecDepth 20000 in
lemma options_to_vec_OPTIONS : options_to_vec OPTIONS = schemaEntries := rfl

set_option maxRecDepth 20000 in
lemma newD_eq (tmp : String) : newD tmp = builtStore tmp := rfl

set_option maxRecDepth 20000 in
lemma new_eq (tmp : String) : new tmp = some (builtStore tmp) := rfl

lemma set_str_of_mem (b : BookOptions) (k v : String) (h : k ∈ b.valid_strings) :
    b.set k v = ({ b with options := (k, BookOption.string v) :: b.options }, Except.ok ()) := by
  simp [BookOptions.set, h]

lemma set_path_of_mem (b : BookOptions) (k v : String) (h1 : k ∉ b.valid_strings)
    (h2 : k ∈ b.valid_paths) :
    b.set k v = ({ b with options := (k, BookOption.path v) :: b.options }, Except.ok ()) := by
  simp [BookOptions.set, h1, h2]

lemma set_char_of_mem (b : BookOptions) (k v : String) (c : Char) (h1 : k ∉ b.valid_strings)
    (h2 : k ∉ b.valid_paths) (h3 : k ∈ b.valid_chars) (hc : parseCharLit v = some c) :
    b.set k v = ({ b with options := (k, BookOption.char c) :: b.options }, Except.ok ()) := by
  simp [BookOptions.set, h1, h2, h3, hc]

lemma set_char_err (b : BookOptions) (k v : String) (h1 : k ∉ b.valid_strings)
    (h2 : k ∉ b.valid_paths) (h3 : k ∈ b.valid_chars) (hc : parseCharLit v = none) :
    b.set k v = (b, Except.error (Error.ConfigParser "could not parse char" v)) := by
  simp [BookOptions.set, h1, h2, h3, hc]

lemma set_bool_of_mem (b : BookOptions) (k v : String) (x : Bool) (h1 : k ∉ b.valid_strings)
    (h2 : k ∉ b.valid_paths) (h3 : k ∉ b.valid_chars) (h4 : k ∈ b.valid_bools)
    (hx : parseBool v = some x) :
    b.set k v = ({ b with options := (k, BookOption.bool x) :: b.options }, Except.ok ()) := by
  simp [BookOptions.set, h1, h2, h3, h4, hx]

lemma set_bool_err (b : BookOptions) (k v : String) (h1 : k ∉ b.valid_strings)
    (h2 : k ∉ b.valid_paths) (h3 : k ∉ b.valid_chars) (h4 : k ∈ b.valid_bools)
    (hx : parseBool v = none) :
    b.set k v = (b, Except.error (Error.ConfigParser "could not parse bool" (k ++ ":" ++ v))) := by
  simp [BookOptions.set, h1, h2, h3, h4, hx]

lemma set_int_of_mem (b : BookOptions) (k v : String) (n : Int) (h1 : k ∉ b.valid_strings)
    (h2 : k ∉ b.valid_paths) (h3 : k ∉ b.valid_chars) (h4 : k ∉ b.valid_bools)
    (h5 : k ∈ b.valid_ints) (hn : parseI32 v = some n) :
    b.set k v = ({ b with options := (k, BookOption.int n) :: b.options }, Except.ok ()) := by
  simp [BookOptions.set, h1, h2, h3, h4, h5, hn]

lemma set_int_err (b : BookOptions) (k v : String) (h1 : k ∉ b.valid_strings)
    (h2 : k ∉ b.valid_paths) (h3 : k ∉ b.valid_chars) (h4 : k ∉ b.valid_bools)
    (h5 : k ∈ b.valid_ints) (hn : parseI32 v = none) :
    b.set k v = (b, Except.error (Error.ConfigParser "could not parse int" (k ++ ":" ++ v))) := by
  simp [BookOptions.set, h1, h2, h3, h4, h5, hn]

lemma set_none_of_mem (b : BookOptions) (k v : String) (h1 : k ∉ b.valid_strings)
    (h2 : k ∉ b.valid_paths) (h3 : k ∉ b.valid_chars) (h4 : k ∉ b.valid_bools)
    (h5 : k ∉ b.valid_ints) :
    b.set k v = (b, Except.error (Error.ConfigParser "unrecognized key" k)) := by
  simp [BookOptions.set, h1, h2, h3, h4, h5]

lemma get_of_insert (b : BookOptions) (k : String) (w : BookOption) :
    BookOptions.get { b with options := (k, w) :: b.options } k = Except.ok w := by
  simp [BookOptions.get, List.lookup]

/-- C1: for every key declared in the schema with type T and a raw value
conforming to T's literal grammar (any value for string/path keys,
`parseCharLit` / `parseBool` / `parseI32` succeeding for char/bool/int
keys), `set` succeeds and the matching typed accessor then returns the
parsed semantic value of the raw string. -/
theorem set_then_get_returns_parsed (b : BookOptions) (k v : String) :
    (k ∈ b.valid_strings →
      (b.set k v).2 = Except.ok () ∧ (b.set k v).1.get_str k = Except.ok v) ∧
    (k ∉ b.valid_strings → k ∈ b.valid_paths →
      (b.set k v).2 = Except.ok () ∧ (b.set k v).1.get_relative_path k = Except.ok v) ∧
    (∀ c : Char, k ∉ b.valid_strings → k ∉ b.valid_paths → k ∈ b.valid_chars →
      parseCharLit v = some c →
      (b.set k v).2 = Except.ok () ∧ (b.set k v).1.get_char k = Except.ok c) ∧
    (∀ x : Bool, k ∉ b.valid_strings → k ∉ b.valid_paths → k ∉ b.valid_chars →
      k ∈ b.valid_bools → parseBool v = some x →
      (b.set k v).2 = Except.ok () ∧ (b.set k v).1.get_bool k = Except.ok x) ∧
    (∀ n : Int, k ∉ b.valid_strings → k ∉ b.valid_paths → k ∉ b.valid_chars →
      k ∉ b.valid_bools → k ∈ b.valid_ints → parseI32 v = some n →
      (b.set k v).2 = Except.ok () ∧ (b.set k v).1.get_i32 k = Except.ok n) := by
  refine ⟨?_, ?_, ?_, ?_, ?_⟩
  · intro h
    rw [set_str_of_mem b k v h]
    exact ⟨rfl, by simp [BookOptions.get_str, get_of_insert, BookOption.as_str, Except.bind]⟩
  · intro h1 h2
    rw [set_path_of_mem b k v h1 h2]
    exact ⟨rfl,
      by simp [BookOptions.get_relative_path, get_of_insert, BookOption.as_path, Except.bind]⟩
  · intro c h1 h2 h3 hc
    rw [set_char_of_mem b k v c h1 h2 h3 hc]
    exact ⟨rfl, by simp [BookOptions.get_char, get_of_insert, BookOption.as_char, Except.bind]⟩
  · intro x h1 h2 h3 h4 hx
    rw [set_bool_of_mem b k v x h1 h2 h3 h4 hx]
    exact ⟨rfl, by simp [BookOptions.get_bool, get_of_insert, BookOption.as_bool, Except.bind]⟩
  · intro n h1 h2 h3 h4 h5 hn
    rw [set_int_of_mem b k v n h1 h2 h3 h4 h5 hn]
    exact ⟨rfl, by simp [BookOptions.get_i32, get_of_insert, BookOption.as_i32, Except.bind]⟩

set_option maxRecDepth 20000 in
/-- Witness for C1: on the freshly constructed store,
`set("numbering", "2")` succeeds and `get_i32("numbering")` returns 2. -/
theorem set_then_get_returns_parsed_witness :
    ((newD "/tmp").set "numbering" "2").2 = Except.ok () ∧
    ((newD "/tmp").set "numbering" "2").1.get_i32 "numbering" = Except.ok 2 := by
  rw [newD_eq]
  exact (set_then_get_returns_parsed (builtStore "/tmp") "numbering" "2").2.2.2.2 2
    (by decide) (by decide) (by decide) (by decide) (by decide) (by decide)

/-- C2: `set` on a bool, int, or char key with a raw string outside that
type's grammar returns the corresponding parse error and leaves the
store exactly as it was (same state, and `get` on the key unchanged). -/
theorem failed_set_leaves_store (b : BookOptions) (k v : String) :
    (k ∉ b.valid_strings → k ∉ b.valid_paths → k ∈ b.valid_chars → parseCharLit v = none →
      b.set k v = (b, Except.error (Error.ConfigParser "could not parse char" v)) ∧
      (b.set k v).1 = b ∧ (b.set k v).1.get k = b.get k) ∧
    (k ∉ b.valid_strings → k ∉ b.valid_paths → k ∉ b.valid_chars → k ∈ b.valid_bools →
      parseBool v = none →
      b.set k v = (b, Except.error (Error.ConfigParser "could not parse bool" (k ++ ":" ++ v))) ∧
      (b.set k v).1 = b ∧ (b.set k v).1.get k = b.get k) ∧
    (k ∉ b.valid_strings → k ∉ b.valid_paths → k ∉ b.valid_chars → k ∉ b.valid_bools →
      k ∈ b.valid_ints → parseI32 v = none →
      b.set k v = (b, Except.error (Error.ConfigParser "could not parse int" (k ++ ":" ++ v))) ∧
      (b.set k v).1 = b ∧ (b.set k v).1.get k = b.get k) := by
  refine ⟨?_, ?_, ?_⟩
  · intro h1 h2 h3 hc
    have h := set_char_err b k v h1 h2 h3 hc
    exact ⟨h, by rw [h], by rw [h]⟩
  · intro h1 h2 h3 h4 hx
    have h := set_bool_err b k v h1 h2 h3 h4 hx
    exact ⟨h, by rw [h], by rw [h]⟩
  · intro h1 h2 h3 h4 h5 hn
    have h := set_int_err b k v h1 h2 h3 h4 h5 hn
    exact ⟨h, by rw [h], by rw [h]⟩

set_option maxRecDepth 20000 in
/-- Witness for C2: `set("autoclean", "notabool")` on the fresh store
fails, and `get_bool("autoclean")` still returns the schema default
`true`. -/
theorem failed_set_leaves_store_witness :
    ((newD "/tmp").set "autoclean" "notabool").2 =
      Except.error (Error.ConfigParser "could not parse bool" "autoclean:notabool") ∧
    ((newD "/tmp").set "autoclean" "notabool").1.get_bool "autoclean" = Except.ok true := by
  rw [newD_eq]
  obtain ⟨h1, h2, h3⟩ :=
    (failed_set_leaves_store (builtStore "/tmp") "autoclean" "notabool").2.1
      (by decide) (by decide) (by decide) (by decide) (by decide)
  refine ⟨?_, ?_⟩
  · rw [h1]
    rfl
  · rw [h2]
    rfl

lemma parseCharLit_eq_some_iff (v : String) (c : Char) :
    parseCharLit v = some c ↔
      ∃ pre post : List Char,
        trimList v.data = pre ++ squote :: (c :: squote :: post) ∧
        squote ∉ pre ∧ squote ∉ post ∧ c ≠ squote := by
  constructor
  · intro h
    unfold parseCharLit at h
    split at h
    · rename_i pre c' post heq
      injection h with h'
      subst h'
      obtain ⟨hl, ha, hm, hb⟩ :=
        (splitOnChar_eq_three_iff squote (trimList v.data) pre [c'] post).mp heq
      refine ⟨pre, post, by simpa using hl, ha, hb, ?_⟩
      intro hcq
      exact hm (by simp [hcq])
    · simp at h
  · rintro ⟨pre, post, hl, hpre, hpost, hc⟩
    have hsp : splitOnChar squote (trimList v.data) = [pre, [c], post] := by
      apply (splitOnChar_eq_three_iff squote (trimList v.data) pre [c] post).mpr
      refine ⟨by simpa using hl, hpre, ?_, hpost⟩
      intro hmem
      rw [List.mem_singleton] at hmem
      exact hc hmem.symm
    unfold parseCharLit
    rw [hsp]

set_option maxRecDepth 20000 in
/-- C3 counterexample: the raw value `x'a'y` is not, after trimming, of
the exact shape `'<one character>'` (`specCharShape` is false), yet
`set("nb_char", "x'a'y")` on the freshly constructed store succeeds and
stores `a`; so `set` on a char key does not require that exact shape. -/
theorem char_exact_shape_cex :
    ((newD "/tmp").set "nb_char" "x\x27a\x27y").2 = Except.ok () ∧
    ((newD "/tmp").set "nb_char" "x\x27a\x27y").1.get_char "nb_char" = Except.ok 'a' ∧
    specCharShape "x\x27a\x27y" = false := by
  rw [newD_eq]
  exact ⟨rfl, rfl, rfl⟩

/-- C3 (amended): for every char-typed key, `set(key, value)` succeeds
iff the trimmed value contains exactly two single-quote characters with
exactly one character strictly between them — the text before the first
quote and after the second is ignored rather than required empty — and
the stored char is the one between the quotes; any other value fails
with a "could not parse char" error. -/
theorem char_set_two_quotes_one_between (b : BookOptions) (k v : String)
    (h1 : k ∉ b.valid_strings) (h2 : k ∉ b.valid_paths) (h3 : k ∈ b.valid_chars) :
    ((b.set k v).2 = Except.ok () ↔
      ∃ (pre post : List Char) (c : Char),
        trimList v.data = pre ++ squote :: (c :: squote :: post) ∧
        squote ∉ pre ∧ squote ∉ post ∧ c ≠ squote) ∧
    (∀ (pre post : List Char) (c : Char),
      trimList v.data = pre ++ squote :: (c :: squote :: post) →
      squote ∉ pre → squote ∉ post → c ≠ squote →
      (b.set k v).1.get_char k = Except.ok c) ∧
    ((∀ (pre post : List Char) (c : Char),
        ¬(trimList v.data = pre ++ squote :: (c :: squote :: post) ∧
          squote ∉ pre ∧ squote ∉ post ∧ c ≠ squote)) →
      b.set k v = (b, Except.error (Error.ConfigParser "could not parse char" v))) := by
  cases hp : parseCharLit v with
  | some c0 =>
    have hs := set_char_of_mem b k v c0 h1 h2 h3 hp
    obtain ⟨pre0, post0, hl0, hpre0, hpost0, hc0⟩ := (parseCharLit_eq_some_iff v c0).mp hp
    refine ⟨⟨fun _ => ⟨pre0, post0, c0, hl0, hpre0, hpost0, hc0⟩, fun _ => by rw [hs]⟩, ?_, ?_⟩
    · intro pre post c hl hpre hpost hc
      have hsome : parseCharLit v = some c :=
        (parseCharLit_eq_some_iff v c).mpr ⟨pre, post, hl, hpre, hpost, hc⟩
      have hcc : c = c0 := by
        rw [hp] at hsome
        injection hsome with h'
        exact h'.symm
      subst hcc
      rw [hs]
      simp [BookOptions.get_char, get_of_insert, BookOption.as_char, Except.bind]
    · intro hall
      exact absurd ⟨hl0, hpre0, hpost0, hc0⟩ (hall pre0 post0 c0)
  | none =>
    have hs := set_char_err b k v h1 h2 h3 hp
    refine ⟨⟨?_, ?_⟩, ?_, fun _ => hs⟩
    · intro hok
      rw [hs] at hok
      simp at hok
    · rintro ⟨pre, post, c, hl, hpre, hpost, hc⟩
      have hsome : parseCharLit v = some c :=
        (parseCharLit_eq_some_iff v c).mpr ⟨pre, post, hl, hpre, hpost, hc⟩
      rw [hp] at hsome
      simp at hsome
    · intro pre post c hl hpre hpost hc
      have hsome : parseCharLit v = some c :=
        (parseCharLit_eq_some_iff v c).mpr ⟨pre, post, hl, hpre, hpost, hc⟩
      rw [hp] at hsome
      simp at hsome

set_option maxRecDepth 20000 in
/-- Witness for the amended C3: `set("nb_char", "' '")` on the fresh
store succeeds and stores the space character. -/
theorem char_set_two_quotes_one_between_witness :
    ((newD "/tmp").set "nb_char" "\x27 \x27").2 = Except.ok () ∧
    ((newD "/tmp").set "nb_char" "\x27 \x27").1.get_char "nb_char" = Except.ok ' ' := by
  rw [newD_eq]
  have h := char_set_two_quotes_one_between (builtStore "/tmp") "nb_char" "\x27 \x27"
    (by decide) (by decide) (by decide)
  exact ⟨h.1.mpr ⟨[], [], ' ', by decide, by decide, by decide, by decide⟩,
    h.2.1 [] [] ' ' (by decide) (by decide) (by decide) (by decide)⟩

/-- C5: `set` on a key in none of the five valid-key sets fails with an
"unrecognized key" error naming the key and stores nothing; the sets are
consulted in the fixed order strings, paths, chars, bools, ints, and the
first set containing the key decides the conversion applied. -/
theorem unrecognized_key_and_priority (b : BookOptions) (k v : String) :
    (k ∉ b.valid_strings → k ∉ b.valid_paths → k ∉ b.valid_chars → k ∉ b.valid_bools →
      k ∉ b.valid_ints →
      b.set k v = (b, Except.error (Error.ConfigParser "unrecognized key" k))) ∧
    (k ∈ b.valid_strings →
      b.set k v = ({ b with options := (k, BookOption.string v) :: b.options }, Except.ok ())) ∧
    (k ∉ b.valid_strings → k ∈ b.valid_paths →
      b.set k v = ({ b with options := (k, BookOption.path v) :: b.options }, Except.ok ())) ∧
    (k ∉ b.valid_strings → k ∉ b.valid_paths → k ∈ b.valid_chars →
      b.set k v = (match parseCharLit v with
        | some c => ({ b with options := (k, BookOption.char c) :: b.options }, Except.ok ())
        | none => (b, Except.error (Error.ConfigParser "could not parse char" v)))) ∧
    (k ∉ b.valid_strings → k ∉ b.valid_paths → k ∉ b.valid_chars → k ∈ b.valid_bools →
      b.set k v = (match parseBool v with
        | some x => ({ b with options := (k, BookOption.bool x) :: b.options }, Except.ok ())
        | none =>
          (b, Except.error (Error.ConfigParser "could not parse bool" (k ++ ":" ++ v))))) ∧
    (k ∉ b.valid_strings → k ∉ b.valid_paths → k ∉ b.valid_chars → k ∉ b.valid_bools →
      k ∈ b.valid_ints →
      b.set k v = (match parseI32 v with
        | some n => ({ b with options := (k, BookOption.int n) :: b.options }, Except.ok ())
        | none =>
          (b, Except.error (Error.ConfigParser "could not parse int" (k ++ ":" ++ v))))) := by
  refine ⟨set_none_of_mem b k v, set_str_of_mem b k v, set_path_of_mem b k v, ?_, ?_, ?_⟩
  · intro h1 h2 h3
    cases hp : parseCharLit v with
    | some c => exact set_char_of_mem b k v c h1 h2 h3 hp
    | none => exact set_char_err b k v h1 h2 h3 hp
  · intro h1 h2 h3 h4
    cases hx : parseBool v with
    | some x => exact set_bool_of_mem b k v x h1 h2 h3 h4 hx
    | none => exact set_bool_err b k v h1 h2 h3 h4 hx
  · intro h1 h2 h3 h4 h5
    cases hn : parseI32 v with
    | some n => exact set_int_of_mem b k v n h1 h2 h3 h4 h5 hn
    | none => exact set_int_err b k v h1 h2 h3 h4 h5 hn

set_option maxRecDepth 20000 in
/-- Witness for C5: `set("autor", ...)` (a misspelling of `author`)
fails with the unrecognized-key error and leaves the store unchanged. -/
theorem unrecognized_key_and_priority_witness :
    (newD "/tmp").set "autor" "John Smith" =
      (newD "/tmp", Except.error (Error.ConfigParser "unrecognized key" "autor")) := by
  rw [newD_eq]
  exact (unrecognized_key_and_priority (builtStore "/tmp") "autor" "John Smith").1
    (by decide) (by decide) (by decide) (by decide) (by decide)

/-- C6: on a stored path value, `get_path` returns the store's root
joined with the stored path and `get_relative_path` returns the stored
path unmodified; both propagate `get`'s error when the key is absent and
fail with a type-mismatch error when the stored value is not a path. -/
theorem path_accessors (b : BookOptions) (k : String) :
    (∀ p : String, b.get k = Except.ok (BookOption.path p) →
      b.get_path k = Except.ok (pathJoin b.root p) ∧
      b.get_relative_path k = Except.ok p) ∧
    (∀ e : Error, b.get k = Except.error e →
      b.get_path k = Except.error e ∧ b.get_relative_path k = Except.error e) ∧
    (∀ w : BookOption, b.get k = Except.ok w → (∀ p : String, w ≠ BookOption.path p) →
      b.get_path k = Except.error (Error.BookOption (reprB w ++ " is not a path")) ∧
      b.get_relative_path k =
        Except.error (Error.BookOption (reprB w ++ " is not a path"))) := by
  refine ⟨?_, ?_, ?_⟩
  · intro p h
    constructor
    · simp [BookOptions.get_path, h, BookOption.as_path, Except.bind]
    · simp [BookOptions.get_relative_path, h, BookOption.as_path, Except.bind]
  · intro e h
    constructor
    · simp [BookOptions.get_path, h, Except.bind]
    · simp [BookOptions.get_relative_path, h, Except.bind]
  · intro w h hne
    have hw : w.as_path = Except.error (Error.BookOption (reprB w ++ " is not a path")) := by
      cases w with
      | path p => exact absurd rfl (hne p)
      | string s => rfl
      | bool x => rfl
      | char c => rfl
      | int n => rfl
    constructor
    · simp [BookOptions.get_path, h, Except.bind, hw]
    · simp [BookOptions.get_relative_path, h, Except.bind, hw]

set_option maxRecDepth 20000 in
/-- Witness for C6: with root `/books/mybook` and
`set("cover", "img/c.png")`, `get_path("cover")` returns
`/books/mybook/img/c.png` and `get_relative_path("cover")` returns
`img/c.png`. -/
theorem path_accessors_witness :
    (({ newD "/tmp" with root := "/books/mybook" } : BookOptions).set "cover"
        "img/c.png").1.get_path "cover" = Except.ok "/books/mybook/img/c.png" ∧
    (({ newD "/tmp" with root := "/books/mybook" } : BookOptions).set "cover"
        "img/c.png").1.get_relative_path "cover" = Except.ok "img/c.png" := by
  rw [newD_eq]
  obtain ⟨hp, hr⟩ :=
    (path_accessors
      (({ builtStore "/tmp" with root := "/books/mybook" } : BookOptions).set "cover"
        "img/c.png").1 "cover").1 "img/c.png" (by rfl)
  exact ⟨hp.trans (by rfl), hr⟩

lemma as_str_mismatch (w : BookOption) (hne : ∀ s, w ≠ BookOption.string s) :
    w.as_str = Except.error (Error.BookOption (reprB w ++ " is not a string")) := by
  cases w with
  | string s => exact absurd rfl (hne s)
  | bool x => rfl
  | char c => rfl
  | int n => rfl
  | path p => rfl

lemma as_bool_mismatch (w : BookOption) (hne : ∀ x, w ≠ BookOption.bool x) :
    w.as_bool = Except.error (Error.BookOption (reprB w ++ " is not a bool")) := by
  cases w with
  | bool x => exact absurd rfl (hne x)
  | string s => rfl
  | char c => rfl
  | int n => rfl
  | path p => rfl

lemma as_char_mismatch (w : BookOption) (hne : ∀ c, w ≠ BookOption.char c) :
    w.as_char = Except.error (Error.BookOption (reprB w ++ " is not a char")) := by
  cases w with
  | char c => exact absurd rfl (hne c)
  | string s => rfl
  | bool x => rfl
  | int n => rfl
  | path p => rfl

lemma as_i32_mismatch (w : BookOption) (hne : ∀ n, w ≠ BookOption.int n) :
    w.as_i32 = Except.error (Error.BookOption (reprB w ++ " is not an i32")) := by
  cases w with
  | int n => exact absurd rfl (hne n)
  | string s => rfl
  | bool x => rfl
  | char c => rfl
  | path p => rfl

lemma as_path_mismatch (w : BookOption) (hne : ∀ p, w ≠ BookOption.path p) :
    w.as_path = Except.error (Error.BookOption (reprB w ++ " is not a path")) := by
  cases w with
  | path p => exact absurd rfl (hne p)
  | string s => rfl
  | bool x => rfl
  | char c => rfl
  | int n => rfl

/-- C7: `get` fails with the "option not present" error naming the key
exactly when the key has no stored value, and each typed accessor fails
with a type-mismatch error whenever the stored value's kind differs from
the kind the accessor requests. -/
theorem get_absent_and_type_mismatch (b : BookOptions) (k : String) :
    (b.get k = Except.error (Error.InvalidOption ("option " ++ k ++ " is not persent")) ↔
      b.options.lookup k = none) ∧
    (∀ w : BookOption, b.options.lookup k = some w → b.get k = Except.ok w) ∧
    (∀ w : BookOption, b.get k = Except.ok w →
      ((∀ s, w ≠ BookOption.string s) →
        b.get_str k = Except.error (Error.BookOption (reprB w ++ " is not a string"))) ∧
      ((∀ p, w ≠ BookOption.path p) →
        b.get_path k = Except.error (Error.BookOption (reprB w ++ " is not a path")) ∧
        b.get_relative_path k =
          Except.error (Error.BookOption (reprB w ++ " is not a path"))) ∧
      ((∀ x, w ≠ BookOption.bool x) →
        b.get_bool k = Except.error (Error.BookOption (reprB w ++ " is not a bool"))) ∧
      ((∀ c, w ≠ BookOption.char c) →
        b.get_char k = Except.error (Error.BookOption (reprB w ++ " is not a char"))) ∧
      ((∀ n, w ≠ BookOption.int n) →
        b.get_i32 k = Except.error (Error.BookOption (reprB w ++ " is not an i32")))) := by
  refine ⟨?_, ?_, ?_⟩
  · cases hl : b.options.lookup k with
    | some w => simp [BookOptions.get, hl]
    | none => simp [BookOptions.get, hl]
  · intro w hl
    simp [BookOptions.get, hl]
  · intro w hw
    refine ⟨?_, ?_, ?_, ?_, ?_⟩
    · intro hne
      simp [BookOptions.get_str, hw, Except.bind, as_str_mismatch w hne]
    · intro hne
      constructor
      · simp [BookOptions.get_path, hw, Except.bind, as_path_mismatch w hne]
      · simp [BookOptions.get_relative_path, hw, Except.bind, as_path_mismatch w hne]
    · intro hne
      simp [BookOptions.get_bool, hw, Except.bind, as_bool_mismatch w hne]
    · intro hne
      simp [BookOptions.get_char, hw, Except.bind, as_char_mismatch w hne]
    · intro hne
      simp [BookOptions.get_i32, hw, Except.bind, as_i32_mismatch w hne]

/-- Witness for C7: on a store holding a bool under key `k1`, `get_str`
fails with the type-mismatch error, and `get` on an absent key fails
with the "option not present" error. -/
theorem get_absent_and_type_mismatch_witness :
    ({ initStore with options := [("k1", BookOption.bool true)] } : BookOptions).get_str "k1" =
      Except.error (Error.BookOption "Bool(true) is not a string") ∧
    ({ initStore with options := [("k1", BookOption.bool true)] } : BookOptions).get "k2" =
      Except.error (Error.InvalidOption "option k2 is not persent") := by
  constructor
  · have h :=
      (((get_absent_and_type_mismatch
        ({ initStore with options := [("k1", BookOption.bool true)] }) "k1").2.2
          (BookOption.bool true) (by rfl)).1 (fun s hs => by cases hs))
    exact h.trans (by rfl)
  · have h :=
      ((get_absent_and_type_mismatch
        ({ initStore with options := [("k1", BookOption.bool true)] }) "k2").1.mpr (by rfl))
    exact h.trans (by rfl)


/-- C9: an option line whose type token is not one of the five
recognized names makes construction abort (`none` models the panic — no
recoverable error is returned); on the compiled-in `OPTIONS` schema
every type token is recognized, so `new` always yields a store. -/
theorem bad_type_token_aborts (tmp : String) :
    newFrom "foo:wat                # comment" tmp = none ∧ (new tmp).isSome := by
  refine ⟨rfl, ?_⟩
  rw [new_eq]
  rfl

/-- C4: after construction with no explicit `set` call, every schema key
with a literal default holds that default's parsed value (in particular
`get_str "lang" = "en"`, `get_i32 "numbering" = 1` and
`get_bool "display_toc" = false`), while `temp_dir` — whose literal
schema default is the empty string — instead holds the non-empty path
obtained from the environment's temp-directory lookup. -/
theorem defaults_after_construction (tmp : String) (htmp : tmp ≠ "") :
    (new tmp).isSome ∧
    (newD tmp).get_str "lang" = Except.ok "en" ∧
    (newD tmp).get_i32 "numbering" = Except.ok 1 ∧
    (newD tmp).get_bool "display_toc" = Except.ok false ∧
    List.Forall (fun e => ∀ k t d : String,
      e.2.1 = some k → e.2.2.1 = some t → e.2.2.2 = some d → k ≠ "temp_dir" →
      ∃ w, parsedDefault t d = some w ∧ (newD tmp).get k = Except.ok w)
      (options_to_vec OPTIONS) ∧
    (∃ c, (c, some "temp_dir", some "path", some "") ∈ options_to_vec OPTIONS) ∧
    (newD tmp).get "temp_dir" = Except.ok (BookOption.path tmp) ∧
    (newD tmp).get_relative_path "temp_dir" = Except.ok tmp ∧
    tmp ≠ "" := by
  refine ⟨?_, ?_, ?_, ?_, ?_, ?_, ?_, ?_, htmp⟩
  · rw [new_eq]
    rfl
  · rw [newD_eq]
    rfl
  · rw [newD_eq]
    rfl
  · rw [newD_eq]
    rfl
  · rw [options_to_vec_OPTIONS, newD_eq]
    simp only [schemaEntries, List.forall_cons, List.Forall, and_true]
    repeat' apply And.intro
    all_goals
      intro k t d h1 h2 h3 h4
      first
      | exact Option.noConfusion h1
      | exact Option.noConfusion h3
      | (injection h1 with e1
         injection h2 with e2
         injection h3 with e3
         subst e1
         subst e2
         subst e3
         first
         | exact absurd rfl h4
         | exact ⟨_, rfl, rfl⟩)
  · rw [options_to_vec_OPTIONS]
    exact ⟨" Path where to create a temporary directory (default: uses result from Rust\x27s std::env::temp_dir())",
      by decide⟩
  · rw [newD_eq]
    rfl
  · rw [newD_eq]
    rfl

/-- Witness for C4: at the concrete temp directory `/tmp`, construction
succeeds and the example defaults hold. -/
theorem defaults_after_construction_witness :
    (new "/tmp").isSome ∧
    (newD "/tmp").get_str "lang" = Except.ok "en" ∧
    (newD "/tmp").get_relative_path "temp_dir" = Except.ok "/tmp" := by
  have h := defaults_after_construction "/tmp" (by decide)
  exact ⟨h.1, h.2.1, h.2.2.2.2.2.2.2.1⟩

/-- C8: in the constructed store the five valid-key sets are exactly the
schema's keys grouped by type, their concatenation has no duplicate (so
the sets are pairwise disjoint and no key is registered twice), every
schema option key is in one of them, and `set` — the only mutating
operation — never changes them. -/
theorem valid_sets_partition (tmp : String) :
    (newD tmp).valid_strings = ["author", "title", "lang", "subject", "description",
      "zip.command", "toc_name", "numbering_template", "tex.command"] ∧
    (newD tmp).valid_paths = ["cover", "output.epub", "output.html", "output.tex",
      "output.pdf", "output.odt", "temp_dir", "html.template", "html.css", "epub.css",
      "epub.template", "tex.template"] ∧
    (newD tmp).valid_chars = ["nb_char"] ∧
    (newD tmp).valid_bools = ["display_toc", "autoclean", "verbose", "side_notes",
      "tex.links_as_footnotes"] ∧
    (newD tmp).valid_ints = ["numbering", "epub.version"] ∧
    ((newD tmp).valid_strings ++ (newD tmp).valid_paths ++ (newD tmp).valid_chars ++
      (newD tmp).valid_bools ++ (newD tmp).valid_ints).Nodup ∧
    List.Forall (fun e => ∀ k : String, e.2.1 = some k →
      k ∈ (newD tmp).valid_strings ++ (newD tmp).valid_paths ++ (newD tmp).valid_chars ++
        (newD tmp).valid_bools ++ (newD tmp).valid_ints)
      (options_to_vec OPTIONS) ∧
    (∀ (b : BookOptions) (k v : String),
      (b.set k v).1.valid_strings = b.valid_strings ∧
      (b.set k v).1.valid_paths = b.valid_paths ∧
      (b.set k v).1.valid_chars = b.valid_chars ∧
      (b.set k v).1.valid_bools = b.valid_bools ∧
      (b.set k v).1.valid_ints = b.valid_ints) := by
  refine ⟨by rw [newD_eq]; rfl, by rw [newD_eq]; rfl, by rw [newD_eq]; rfl,
    by rw [newD_eq]; rfl, by rw [newD_eq]; rfl,
    by rw [newD_eq]; simp only [builtStore]; decide, ?_, ?_⟩
  · rw [options_to_vec_OPTIONS, newD_eq]
    simp only [schemaEntries, List.forall_cons, List.Forall, and_true]
    repeat' apply And.intro
    all_goals
      intro k h1
      first
      | exact Option.noConfusion h1
      | (injection h1 with e1
         subst e1
         simp only [builtStore]
         decide)
  · intro b k v
    refine ⟨?_, ?_, ?_, ?_, ?_⟩
    all_goals
      simp only [BookOptions.set]
      repeat' split
      all_goals rfl

/-- Witness for C8: the partition facts at `/tmp`, and a concrete `set`
call that leaves the valid-key sets unchanged. -/
theorem valid_sets_partition_witness :
    ((initStore.set "author" "X").1.valid_strings = initStore.valid_strings) ∧
    (newD "/tmp").valid_chars = ["nb_char"] := by
  have h := valid_sets_partition "/tmp"
  exact ⟨(h.2.2.2.2.2.2.2 initStore "author" "X").1, h.2.2.1⟩

lemma descChunks_length (md : Bool) :
    ∀ (es : List Entry) (prev : Bool), (descChunks md es prev).length = es.length := by
  intro es
  induction es with
  | nil => intro prev; rfl
  | cons e rest ih =>
    intro prev
    obtain ⟨c, k?, t?, d?⟩ := e
    cases k? with
    | none => simp [descChunks, ih]
    | some k => simp [descChunks, ih]

lemma descLoop_eq_joinChunks (md : Bool) :
    ∀ (es : List Entry) (prev : Bool),
      descLoop md es prev = joinChunks (descChunks md es prev) := by
  intro es
  induction es with
  | nil => intro prev; rfl
  | cons e rest ih =>
    intro prev
    obtain ⟨c, k?, t?, d?⟩ := e
    cases k? with
    | none => simp [descLoop, descChunks, joinChunks, ih]
    | some k => simp [descLoop, descChunks, joinChunks, ih]

lemma descChunks_zip_option (md : Bool) :
    ∀ (es : List Entry) (prev : Bool) (p : Entry × String),
      p ∈ es.zip (descChunks md es prev) →
      ∀ (c k t : String) (d? : Option String), p.1 = (c, some k, some t, d?) →
      p.2 = optionChunk md c k (humanTypeName t) (d?.getD "not set") := by
  intro es
  induction es with
  | nil =>
    intro prev p hp
    simp at hp
  | cons e rest ih =>
    intro prev p hp c k t d? hpe
    obtain ⟨ec, ek?, et?, ed?⟩ := e
    cases ek? with
    | none =>
      simp only [descChunks, List.zip_cons_cons] at hp
      rcases List.mem_cons.mp hp with heq | hmem
      · subst heq
        simp only [Prod.mk.injEq] at hpe
        exact Option.noConfusion hpe.2.1
      · exact ih true p hmem c k t d? hpe
    | some k0 =>
      simp only [descChunks, List.zip_cons_cons] at hp
      rcases List.mem_cons.mp hp with heq | hmem
      · subst heq
        simp only [Prod.mk.injEq] at hpe
        obtain ⟨h1, h2, h3, h4⟩ := hpe
        injection h2 with h2'
        subst h1
        subst h2'
        subst h3
        subst h4
        rfl
      · exact ih false p hmem c k t d? hpe

/-- C10: `description md` (for both md = true and md = false) is the
concatenation of one chunk per schema entry in declaration order; every
option entry's chunk renders exactly its key, its human-readable type
name and its default value (or the marker "not set"); the schema's
option keys are pairwise distinct, so every key is listed exactly once;
and every schema type token renders to one of the five human-readable
type names string/boolean/integer/char/path. -/
theorem description_lists_options :
    (∀ md : Bool, description md = joinChunks (descChunks md (options_to_vec OPTIONS) true)) ∧
    (∀ (md prev : Bool) (es : List Entry), (descChunks md es prev).length = es.length) ∧
    (∀ (md prev : Bool) (es : List Entry) (p : Entry × String),
      p ∈ es.zip (descChunks md es prev) →
      ∀ (c k t : String) (d? : Option String), p.1 = (c, some k, some t, d?) →
      p.2 = optionChunk md c k (humanTypeName t) (d?.getD "not set")) ∧
    ((options_to_vec OPTIONS).filterMap (fun e => e.2.1)).Nodup ∧
    ((options_to_vec OPTIONS).all fun e =>
      e.2.1.isNone ||
        ["string", "boolean", "integer", "char", "path"].contains
          (humanTypeName (e.2.2.1.getD ""))) = true := by
  refine ⟨?_, ?_, ?_, ?_, ?_⟩
  · intro md
    exact descLoop_eq_joinChunks md (options_to_vec OPTIONS) true
  · intro md prev es
    exact descChunks_length md es prev
  · intro md prev es
    exact descChunks_zip_option md es prev
  · rw [options_to_vec_OPTIONS]
    decide
  · rw [options_to_vec_OPTIONS]
    decide

/-- Witness for C10: the chunk `description` emits for the `author`
entry is exactly the rendered option line with its key, type name and
default. -/
theorem description_lists_options_witness :
    "- author (type: string) (default: Anonymous)  The author of the book\n" =
      optionChunk false " The author of the book" "author" (humanTypeName "str")
        ((some "Anonymous").getD "not set") :=
  description_lists_options.2.2.1 false true (options_to_vec OPTIONS)
    ((" The author of the book", some "author", some "str", some "Anonymous"),
      "- author (type: string) (default: Anonymous)  The author of the book\n")
    (by rw [options_to_vec_OPTIONS]; decide)
    " The author of the book" "author" "str" (some "Anonymous") rfl
